import Mathlib

/-!
# A verification of topicfoundry's event-derivation pipeline

This file is a shallow embedding, in Lean 4, of the core of
`topicfoundry.py`: the JSON-shaped ABI loader, the type normalizer, the
event-signature / topic0 deriver (Keccak-256), the event-model builder,
the SQL / JSON-Schema / CSV / filter projection generators, and the
input-path expansion.  Python dicts parsed from JSON are modelled by the
inductive `Json` below; Python's `json` module, `glob.glob` and
`os.path.isfile` are external collaborators and enter as explicit
function parameters.  Machine integers do not occur in the source; the
64-bit lanes of Keccak are modelled as `Nat` reduced `% 2 ^ 64`.
-/

/-- A JSON value, as produced by Python's `json.load`.  Numbers are
modelled as integers (no claim under verification involves fractional
numbers). -/
inductive Json where
  | null : Json
  | bool : Bool → Json
  | num : Int → Json
  | str : String → Json
  | arr : List Json → Json
  | obj : List (String × Json) → Json

/-- Python `d.get(k)` on a parsed-JSON dict: `none` when the key is
absent or the value is not a JSON object.  (On a real Python non-dict,
`.get` would raise `AttributeError`; no claim exercises that path.) -/
def jget (j : Json) (k : String) : Option Json :=
  match j with
  | .obj kvs => (kvs.find? (fun kv => kv.1 == k)).map (fun kv => kv.2)
  | _ => none

/-- Python truthiness of a JSON-representable value, as used by
`bool(x)` and by `x or y`. -/
def pyTruthy : Json → Bool
  | .null => false
  | .bool b => b
  | .num n => n != 0
  | .str s => !s.isEmpty
  | .arr xs => !xs.isEmpty
  | .obj kvs => !kvs.isEmpty

/-- Python `bool(d.get(k, False))`: absent key defaults to `False`. -/
def pyBool (o : Option Json) : Bool :=
  match o with
  | none => false
  | some v => pyTruthy v

/-- Python `d.get(k, "")` read as a string, as in `it.get("name", "")` and
`p.get("type", "")`.  A present non-string value (e.g. `null`) is
modelled as `""`; the source would propagate the raw Python value, a
path no claim exercises. -/
def strOrEmpty (o : Option Json) : String :=
  match o with
  | some (.str s) => s
  | _ => ""

-- ------------------------------ helpers ------------------------------

/-- The function `normalize_type` from the source: canonicalize Solidity shorthands. -/
def normalizeType (t : String) : String :=
  if t = "uint" then "uint256"
  else if t = "int" then "int256"
  else t

/-- The function `event_signature(name, inputs)` from the source:
`f"{name}({','.join(normalize_type(i.get('type','')) for i in inputs)})"`. -/
def eventSignature (name : String) (inputs : List Json) : String :=
  name ++ "(" ++
    String.intercalate "," (inputs.map (fun i => normalizeType (strOrEmpty (jget i "type")))) ++ ")"

-- ------------------------------ Keccak-256 ------------------------------
-- `eth_utils.keccak(text=sig)` is the Keccak-256 hash (original Keccak
-- padding `0x01`, not SHA-3's `0x06`) of the UTF-8 bytes of `sig`.
-- The library is external to the repository; it is embedded here by the
-- standard Keccak-f[1600] sponge with rate 136, so the derivation of
-- `topic0` is computable down to concrete hex digests.

/-- UTF-8 encoding of one character (standard 1-4 byte encoding). -/
def utf8Char (c : Char) : List Nat :=
  let n := c.toNat
  if n < 0x80 then [n]
  else if n < 0x800 then [0xC0 + n / 64, 0x80 + n % 64]
  else if n < 0x10000 then [0xE0 + n / 4096, 0x80 + n / 64 % 64, 0x80 + n % 64]
  else [0xF0 + n / 262144, 0x80 + n / 4096 % 64, 0x80 + n / 64 % 64, 0x80 + n % 64]

/-- UTF-8 bytes of a string (Python `s.encode("utf-8")`). -/
def utf8Bytes (s : String) : List Nat :=
  s.data.foldr (fun c acc => utf8Char c ++ acc) []

/-- The 5×5 Keccak state of 64-bit lanes; field `aXY` is lane `A[x,y]`. -/
structure KState where
  a00 : Nat
  a10 : Nat
  a20 : Nat
  a30 : Nat
  a40 : Nat
  a01 : Nat
  a11 : Nat
  a21 : Nat
  a31 : Nat
  a41 : Nat
  a02 : Nat
  a12 : Nat
  a22 : Nat
  a32 : Nat
  a42 : Nat
  a03 : Nat
  a13 : Nat
  a23 : Nat
  a33 : Nat
  a43 : Nat
  a04 : Nat
  a14 : Nat
  a24 : Nat
  a34 : Nat
  a44 : Nat

def kZero : KState :=
  ⟨0, 0, 0, 0, 0, 0, 0, 0, 0, 0, 0, 0, 0, 0, 0, 0, 0, 0, 0, 0, 0, 0, 0, 0, 0⟩

/-- A 64-bit rotate left on a lane value `< 2 ^ 64`. -/
def rotl64 (x n : Nat) : Nat :=
  ((x <<< n) ||| (x >>> (64 - n))) % (2 ^ 64)

/-- A 64-bit complement. -/
def not64 (x : Nat) : Nat :=
  x ^^^ 0xFFFFFFFFFFFFFFFF

/-- Keccak θ step. -/
def thetaStep (s : KState) : KState :=
  let c0 := s.a00 ^^^ s.a01 ^^^ s.a02 ^^^ s.a03 ^^^ s.a04
  let c1 := s.a10 ^^^ s.a11 ^^^ s.a12 ^^^ s.a13 ^^^ s.a14
  let c2 := s.a20 ^^^ s.a21 ^^^ s.a22 ^^^ s.a23 ^^^ s.a24
  let c3 := s.a30 ^^^ s.a31 ^^^ s.a32 ^^^ s.a33 ^^^ s.a34
  let c4 := s.a40 ^^^ s.a41 ^^^ s.a42 ^^^ s.a43 ^^^ s.a44
  let d0 := c4 ^^^ rotl64 c1 1
  let d1 := c0 ^^^ rotl64 c2 1
  let d2 := c1 ^^^ rotl64 c3 1
  let d3 := c2 ^^^ rotl64 c4 1
  let d4 := c3 ^^^ rotl64 c0 1
  ⟨s.a00 ^^^ d0, s.a10 ^^^ d1, s.a20 ^^^ d2, s.a30 ^^^ d3, s.a40 ^^^ d4,
   s.a01 ^^^ d0, s.a11 ^^^ d1, s.a21 ^^^ d2, s.a31 ^^^ d3, s.a41 ^^^ d4,
   s.a02 ^^^ d0, s.a12 ^^^ d1, s.a22 ^^^ d2, s.a32 ^^^ d3, s.a42 ^^^ d4,
   s.a03 ^^^ d0, s.a13 ^^^ d1, s.a23 ^^^ d2, s.a33 ^^^ d3, s.a43 ^^^ d4,
   s.a04 ^^^ d0, s.a14 ^^^ d1, s.a24 ^^^ d2, s.a34 ^^^ d3, s.a44 ^^^ d4⟩

/-- Keccak ρ+π+χ steps combined: `B[y,(2x+3y)%5] = rot(A[x,y], r[x,y])`
then `A[x,y] = B[x,y] ^^^ (¬B[x+1,y] &&& B[x+2,y])`. -/
def rhoPiChiStep (s : KState) : KState :=
  let b00 := s.a00
  let b02 := rotl64 s.a10 1
  let b04 := rotl64 s.a20 62
  let b01 := rotl64 s.a30 28
  let b03 := rotl64 s.a40 27
  let b13 := rotl64 s.a01 36
  let b10 := rotl64 s.a11 44
  let b12 := rotl64 s.a21 6
  let b14 := rotl64 s.a31 55
  let b11 := rotl64 s.a41 20
  let b21 := rotl64 s.a02 3
  let b23 := rotl64 s.a12 10
  let b20 := rotl64 s.a22 43
  let b22 := rotl64 s.a32 25
  let b24 := rotl64 s.a42 39
  let b34 := rotl64 s.a03 41
  let b31 := rotl64 s.a13 45
  let b33 := rotl64 s.a23 15
  let b30 := rotl64 s.a33 21
  let b32 := rotl64 s.a43 8
  let b42 := rotl64 s.a04 18
  let b44 := rotl64 s.a14 2
  let b41 := rotl64 s.a24 61
  let b43 := rotl64 s.a34 56
  let b40 := rotl64 s.a44 14
  ⟨b00 ^^^ (not64 b10 &&& b20), b10 ^^^ (not64 b20 &&& b30),
   b20 ^^^ (not64 b30 &&& b40), b30 ^^^ (not64 b40 &&& b00),
   b40 ^^^ (not64 b00 &&& b10),
   b01 ^^^ (not64 b11 &&& b21), b11 ^^^ (not64 b21 &&& b31),
   b21 ^^^ (not64 b31 &&& b41), b31 ^^^ (not64 b41 &&& b01),
   b41 ^^^ (not64 b01 &&& b11),
   b02 ^^^ (not64 b12 &&& b22), b12 ^^^ (not64 b22 &&& b32),
   b22 ^^^ (not64 b32 &&& b42), b32 ^^^ (not64 b42 &&& b02),
   b42 ^^^ (not64 b02 &&& b12),
   b03 ^^^ (not64 b13 &&& b23), b13 ^^^ (not64 b23 &&& b33),
   b23 ^^^ (not64 b33 &&& b43), b33 ^^^ (not64 b43 &&& b03),
   b43 ^^^ (not64 b03 &&& b13),
   b04 ^^^ (not64 b14 &&& b24), b14 ^^^ (not64 b24 &&& b34),
   b24 ^^^ (not64 b34 &&& b44), b34 ^^^ (not64 b44 &&& b04),
   b44 ^^^ (not64 b04 &&& b14)⟩

/-- Keccak ι step. -/
def iotaStep (s : KState) (rc : Nat) : KState :=
  { s with a00 := s.a00 ^^^ rc }

/-- The 24 Keccak-f[1600] round constants (the standard values, written
in decimal). -/
def keccakRC : List Nat :=
  [1, 32898, 9223372036854808714,
   9223372039002292224, 32907, 2147483649,
   9223372039002292353, 9223372036854808585, 138,
   136, 2147516425, 2147483658,
   2147516555, 9223372036854775947, 9223372036854808713,
   9223372036854808579, 9223372036854808578, 9223372036854775936,
   32778, 9223372039002259466, 9223372039002292353,
   9223372036854808704, 2147483649, 9223372039002292232]

def keccakRound (s : KState) (rc : Nat) : KState :=
  iotaStep (rhoPiChiStep (thetaStep s)) rc

def keccakF (s : KState) : KState :=
  keccakRC.foldl keccakRound s

/-- Little-endian assembly of up to 8 bytes into a lane. -/
def bytesToLane : List Nat → Nat
  | [] => 0
  | b :: rest => b + 256 * bytesToLane rest

/-- Lane `j` (0-16) of a 136-byte rate block. -/
def laneAt (blk : List Nat) (j : Nat) : Nat :=
  bytesToLane ((blk.drop (8 * j)).take 8)

/-- XOR one 136-byte block into the first 17 lanes of the state. -/
def absorbBlock (s : KState) (blk : List Nat) : KState :=
  { s with
    a00 := s.a00 ^^^ laneAt blk 0
    a10 := s.a10 ^^^ laneAt blk 1
    a20 := s.a20 ^^^ laneAt blk 2
    a30 := s.a30 ^^^ laneAt blk 3
    a40 := s.a40 ^^^ laneAt blk 4
    a01 := s.a01 ^^^ laneAt blk 5
    a11 := s.a11 ^^^ laneAt blk 6
    a21 := s.a21 ^^^ laneAt blk 7
    a31 := s.a31 ^^^ laneAt blk 8
    a41 := s.a41 ^^^ laneAt blk 9
    a02 := s.a02 ^^^ laneAt blk 10
    a12 := s.a12 ^^^ laneAt blk 11
    a22 := s.a22 ^^^ laneAt blk 12
    a32 := s.a32 ^^^ laneAt blk 13
    a42 := s.a42 ^^^ laneAt blk 14
    a03 := s.a03 ^^^ laneAt blk 15
    a13 := s.a13 ^^^ laneAt blk 16 }

/-- Keccak multi-rate padding `0x01 00* 0x80` to a multiple of 136. -/
def keccakPad (bs : List Nat) : List Nat :=
  let padLen := 136 - bs.length % 136
  if padLen = 1 then bs ++ [0x81]
  else bs ++ 0x01 :: (List.replicate (padLen - 2) 0x00 ++ [0x80])

/-- Split a byte list into 136-byte blocks.  The fuel argument (any
bound on the number of blocks, here the list length) makes the recursion
structural; every step consumes at least one element, so the fuel never
runs out. -/
def chunks136Fuel : Nat → List Nat → List (List Nat)
  | 0, _ => []
  | _, [] => []
  | fuel + 1, b :: rest =>
    ((b :: rest).take 136) :: chunks136Fuel fuel ((b :: rest).drop 136)

def chunks136 (l : List Nat) : List (List Nat) :=
  chunks136Fuel l.length l

/-- The 8 bytes of a lane, little-endian. -/
def laneBytes (x : Nat) : List Nat :=
  [x % 256, (x >>> 8) % 256, (x >>> 16) % 256, (x >>> 24) % 256,
   (x >>> 32) % 256, (x >>> 40) % 256, (x >>> 48) % 256, (x >>> 56) % 256]

/-- Keccak-256 of a byte string: absorb all padded blocks, squeeze the
first 32 bytes (4 lanes) of the final state. -/
def keccak256 (msg : List Nat) : List Nat :=
  let s := (chunks136 (keccakPad msg)).foldl (fun st blk => keccakF (absorbBlock st blk)) kZero
  laneBytes s.a00 ++ laneBytes s.a10 ++ laneBytes s.a20 ++ laneBytes s.a30

/-- Lowercase hex digit of a nibble (`0`-`9`, `a`-`f`). -/
def hexDigit (n : Nat) : Char :=
  Char.ofNat (if n < 10 then 48 + n else 87 + n)

/-- Lowercase hex characters of a byte string, two per byte
(Python `bytes.hex()`). -/
def bytesHexChars : List Nat → List Char
  | [] => []
  | b :: rest => hexDigit (b / 16) :: hexDigit (b % 16) :: bytesHexChars rest

def bytesHex (bs : List Nat) : String :=
  ⟨bytesHexChars bs⟩

/-- The function `topic0(sig)` from the source: `"0x" + keccak(text=sig).hex()`. -/
def topic0 (sig : String) : String :=
  "0x" ++ bytesHex (keccak256 (utf8Bytes sig))

-- ------------------------------ SQL type mappings ------------------------------

def pgTypes : List (String × String) :=
  [("address", "bytea"), ("bool", "boolean"), ("bytes32", "bytea"),
   ("bytes", "bytea"), ("string", "text"),
   ("uint256", "numeric(78)"), ("int256", "numeric(78)")]

def bqTypes : List (String × String) :=
  [("address", "BYTES"), ("bool", "BOOL"), ("bytes32", "BYTES"),
   ("bytes", "BYTES"), ("string", "STRING"),
   ("uint256", "NUMERIC"), ("int256", "NUMERIC")]

def chTypes : List (String × String) :=
  [("address", "FixedString(20)"), ("bool", "UInt8"), ("bytes32", "FixedString(32)"),
   ("bytes", "String"), ("string", "String"),
   ("uint256", "Decimal(76,0)"), ("int256", "Decimal(76,0)")]

/-- Python `s.endswith("[]")`: the last two characters are `[]`. -/
def endsWithArr (s : String) : Bool :=
  match s.data.reverse with
  | ']' :: '[' :: _ => true
  | _ => false

/-- The function `to_sql_type(sol, target)` from the source. -/
def toSqlType (sol : String) (target : String) : String :=
  let sol := normalizeType sol
  let base := sol
  if endsWithArr sol then
    if target = "postgres" then "jsonb"
    else if target = "bigquery" then "JSON" else "JSON"
  else if target = "postgres" then ((pgTypes.lookup base).getD "text")
  else if target = "bigquery" then
    (if base = "uint256" ∨ base = "int256" then "BIGNUMERIC"
     else (bqTypes.lookup base).getD "STRING")
  else if target = "clickhouse" then ((chTypes.lookup base).getD "String")
  else "text"

-- ------------------------------ models ------------------------------

/-- The `Param` dataclass. -/
structure Param where
  name : String
  type : String
  indexed : Bool
  position : Nat
deriving DecidableEq

/-- The `EventModel` dataclass. -/
structure EventModel where
  file : String
  contract : String
  name : String
  anonymous : Bool
  signature : String
  topic0 : String
  inputs : List Param
deriving DecidableEq

-- ------------------------------ path helpers ------------------------------

/-- Python `os.path.basename` on a POSIX path: the part after the last `/`. -/
def pyBasename (path : String) : String :=
  ⟨(path.data.reverse.takeWhile (fun c => c ≠ '/')).reverse⟩

/-- Python `str.lower()` restricted to ASCII (parameter and event names
in the claims are ASCII; full Unicode case mapping is not modelled). -/
def pyLowerChar (c : Char) : Char :=
  if 65 ≤ c.toNat ∧ c.toNat ≤ 90 then Char.ofNat (c.toNat + 32) else c

def pyLower (s : String) : String :=
  ⟨s.data.map pyLowerChar⟩

/-- The root part of `os.path.splitext`: strip the extension starting at
the last dot, except that leading dots of the name never start an
extension (`".bashrc"` has no extension). -/
def pySplitextRoot (name : String) : String :=
  let cs := name.data
  match cs.reverse.findIdx? (fun c => c = '.') with
  | none => name
  | some k =>
    let pre := cs.take (cs.length - 1 - k)
    if pre.any (fun c => c ≠ '.') then ⟨pre⟩ else name

-- ------------------------------ extraction ------------------------------

/-- The error surface of the command layer:
`jsonDecode` is Python's `json.JSONDecodeError` escaping `json.load`
(its message carries no file path); `unrecognized path` is the
`click.ClickException(f"Unrecognized ABI format: {path}")`;
`noAbiFiles` is `click.ClickException("No ABI files found")`. -/
inductive CliError where
  | jsonDecode : CliError
  | unrecognized : String → CliError
  | noAbiFiles : CliError
deriving DecidableEq

/-- The function `load_abi_any(path)` from the source.  `content` is the outcome of
`json.load` on the file (`none` when the file is not valid JSON, in
which case the `JSONDecodeError` escapes before any shape check);
`parse` stands for `json.loads` applied to the string held by a
`"result"` key (`none` when that raises, which the source catches and
turns into the shape-mismatch error). -/
def loadAbiAny (parse : String → Option Json) (path : String)
    (content : Option Json) : Except CliError (List Json) :=
  match content with
  | none => .error .jsonDecode
  | some data =>
    match data with
    | .arr xs => .ok xs
    | .obj _ =>
      match jget data "abi" with
      | some (.arr xs) => .ok xs
      | _ =>
        match jget data "result" with
        | some (.str s) =>
          match parse s with
          | some (.arr xs) => .ok xs
          | _ => .error (.unrecognized path)
        | _ => .error (.unrecognized path)
    | _ => .error (.unrecognized path)

/-- The filter guarding the event-model builder:
`it.get("type") != "event": continue`. -/
def isEventEntry (it : Json) : Bool :=
  match jget it "type" with
  | some (.str s) => s == "event"
  | _ => false

/-- Python `it.get("inputs", [])` read as a list of raw parameter entries. -/
def eventInputs (it : Json) : List Json :=
  match jget it "inputs" with
  | some (.arr xs) => xs
  | _ => []

/-- One `Param` from position `i` of the raw inputs:
`name=p.get("name") or f"arg{i}"`, `type=normalize_type(p.get("type",""))`,
`indexed=bool(p.get("indexed", False))`, `position=i`.  A present
non-string truthy `name` (a path no claim exercises) is modelled by the
default. -/
def buildParam (i : Nat) (p : Json) : Param :=
  { name :=
      match jget p "name" with
      | some (.str s) => if s = "" then "arg" ++ toString i else s
      | _ => "arg" ++ toString i
  , type := normalizeType (strOrEmpty (jget p "type"))
  , indexed := pyBool (jget p "indexed")
  , position := i }

/-- The loop `for i, p in enumerate(ins)`, starting at index `k`. -/
def buildParamsFrom (k : Nat) : List Json → List Param
  | [] => []
  | p :: rest => buildParam k p :: buildParamsFrom (k + 1) rest

def buildParams (ins : List Json) : List Param :=
  buildParamsFrom 0 ins

/-- The loop body of `extract_events` for one raw event entry. -/
def buildEvent (path : String) (it : Json) : EventModel :=
  let name := strOrEmpty (jget it "name")
  let ins := eventInputs it
  let sig := eventSignature name ins
  { file := pyBasename path
  , contract := pySplitextRoot (pyBasename path)
  , name := name
  , anonymous := pyBool (jget it "anonymous")
  , signature := sig
  , topic0 := topic0 sig
  , inputs := buildParams ins }

/-- The function `extract_events` applied to an already-loaded entry list. -/
def extractEvents (path : String) (abi : List Json) : List EventModel :=
  (abi.filter isEventEntry).map (buildEvent path)

/-- The function `extract_events(path)` end to end: load, then build the models. -/
def extractEventsFile (parse : String → Option Json)
    (content : String → Option Json) (path : String) :
    Except CliError (List EventModel) :=
  (loadAbiAny parse path (content path)).map (extractEvents path)

-- ------------------------------ path expansion ------------------------------

/-- Python's string `<=`: lexicographic comparison of the code-point
sequences.  (Lean's `String.le` agrees with it but is defined through
well-founded recursion on byte iterators; this structural form is used
so sorting evaluates, and it is proved equivalent below.) -/
def charListLe : List Char → List Char → Bool
  | [], _ => true
  | _ :: _, [] => false
  | c :: cs, d :: ds =>
    if c.toNat < d.toNat then true
    else if d.toNat < c.toNat then false
    else charListLe cs ds

def strLe (a b : String) : Bool :=
  charListLe a.data b.data

/-- The loop body of `expand_paths` for one input path:
`g = glob.glob(p); if g: out.extend(g); elif os.path.isfile(p): out.append(p)`. -/
def pathContribution (globFn : String → List String) (isfile : String → Bool)
    (p : String) : List String :=
  let g := globFn p
  if g ≠ [] then g else if isfile p then [p] else []

/-- The function `expand_paths(paths)` from the source.  `globFn` stands for
`glob.glob` and `isfile` for `os.path.isfile`; `sorted(set(out))` is the
ascending sort of the deduplicated collection. -/
def expandPaths (globFn : String → List String) (isfile : String → Bool)
    (paths : List String) : Except CliError (List String) :=
  let out := paths.flatMap (pathContribution globFn isfile)
  let uniq := List.insertionSort (fun a b => strLe a b = true) out.dedup
  if uniq = [] then .error .noAbiFiles else .ok uniq

-- ------------------------------ command layer ------------------------------

/-- The accumulation loop of `build_cmd`:
`events = []; for p in files: events.extend(extract_events(p))`,
with any exception aborting the loop (and hence the whole invocation,
before anything is printed). -/
def processFiles (parse : String → Option Json)
    (content : String → Option Json) (files : List String) :
    Except CliError (List EventModel) :=
  files.foldlM (fun acc p => (extractEventsFile parse content p).map (fun evs => acc ++ evs)) []

/-- The command `build_cmd`: resolve the paths, then process every file in order.
The returned list is the model list the command serializes; an error
means the invocation aborts with no event output. -/
def buildCmd (parse : String → Option Json) (globFn : String → List String)
    (isfile : String → Bool) (content : String → Option Json)
    (abiPaths : List String) : Except CliError (List EventModel) :=
  (expandPaths globFn isfile abiPaths).bind (processFiles parse content)

-- ------------------------------ DDL generator ------------------------------

/-- The per-parameter column name used by the DDL and JSON-Schema
generators: `f"{'idx_' if p.indexed else 'data_'}{p.name or ('arg'+str(p.position))}".lower()`. -/
def colKey (p : Param) : String :=
  pyLower ((if p.indexed then "idx_" else "data_") ++
    (if p.name = "" then "arg" ++ toString p.position else p.name))

/-- The `cols` list of `ddl_for_event`: six fixed leading columns, then
one column per event parameter. -/
def ddlColsForEvent (ev : EventModel) (target : String) : List (String × String) :=
  [("block_number", if target ≠ "clickhouse" then "BIGINT" else "UInt64"),
   ("block_time", if target ≠ "clickhouse" then "TIMESTAMP" else "DateTime"),
   ("tx_hash", if target = "postgres" then "BYTEA"
               else if target = "bigquery" then "BYTES" else "FixedString(32)"),
   ("log_index", if target ≠ "clickhouse" then "INT" else "UInt32"),
   ("address", toSqlType "address" target),
   ("topic0", if target = "postgres" then "BYTEA"
              else if target = "bigquery" then "BYTES" else "FixedString(32)")]
  ++ ev.inputs.map (fun p => (colKey p, toSqlType p.type target))

/-- The function `ddl_for_event(ev, target, schema)`: one `CREATE TABLE IF NOT EXISTS`
statement (empty string for an unknown target). -/
def ddlForEvent (ev : EventModel) (target : String) (schema : String := "public") : String :=
  let tbl := pyLower (ev.contract ++ "_" ++ ev.name)
  let tblname :=
    if target = "bigquery" then tbl
    else if target = "clickhouse" then tbl
    else schema ++ "." ++ tbl
  let cols := ddlColsForEvent ev target
  if target = "postgres" then
    let colsSql := String.intercalate ",\n  " (cols.map (fun ct => ct.1 ++ " " ++ ct.2))
    "-- " ++ ev.signature ++ "\nCREATE TABLE IF NOT EXISTS " ++ tblname ++
      " (\n  " ++ colsSql ++ "\n);"
  else if target = "bigquery" then
    let colsSql := String.intercalate ",\n  " (cols.map (fun ct => "`" ++ ct.1 ++ "` " ++ ct.2))
    "-- " ++ ev.signature ++ "\nCREATE TABLE IF NOT EXISTS `" ++ tblname ++
      "` (\n  " ++ colsSql ++ "\n);"
  else if target = "clickhouse" then
    let colsSql := String.intercalate ",\n  " (cols.map (fun ct => "`" ++ ct.1 ++ "` " ++ ct.2))
    "-- " ++ ev.signature ++ "\nCREATE TABLE IF NOT EXISTS " ++ tblname ++
      " (\n  " ++ colsSql ++ "\n)\nENGINE = MergeTree()\nORDER BY (block_number, log_index);"
  else ""

-- ------------------------------ JSON Schema generator ------------------------------

/-- The JSON-Schema property object for one normalized parameter type,
from `json_schema_for_event`. -/
def paramPropType (t : String) : Json :=
  if endsWithArr t then
    .obj [("type", .str "array"), ("items", .obj [("type", .str "string")])]
  else if t = "uint256" ∨ t = "int256" then
    .obj [("type", .str "string"), ("pattern", .str "^-?\\d+$")]
  else if t = "address" ∨ t = "bytes32" ∨ t = "bytes" then
    .obj [("type", .str "string")]
  else if t = "bool" then
    .obj [("type", .str "boolean")]
  else
    .obj [("type", .str "string")]

/-- The function `json_schema_for_event(ev)`.  The Python `props` dict preserves
insertion order; it is modelled as the association list in that order
(claims under verification involve no duplicate property keys). -/
def jsonSchemaForEvent (ev : EventModel) : Json :=
  .obj [("$schema", .str "https://json-schema.org/draft/2020-12/schema"),
        ("title", .str (ev.contract ++ "." ++ ev.name)),
        ("type", .str "object"),
        ("properties", .obj
          ([("block_number", .obj [("type", .str "integer")]),
            ("block_time", .obj [("type", .str "string"), ("format", .str "date-time")]),
            ("tx_hash", .obj [("type", .str "string")]),
            ("log_index", .obj [("type", .str "integer")]),
            ("address", .obj [("type", .str "string")]),
            ("topic0", .obj [("type", .str "string")])]
           ++ ev.inputs.map (fun p => (colKey p, paramPropType p.type)))),
        ("additionalProperties", .bool false)]

-- ------------------------------ CSV dictionary generator ------------------------------

/-- One CSV row per (event, parameter) pair, from `dict_cmd`:
contract, event, signature, topic0, position, param, type, indexed as 1/0. -/
def dictRowsForEvent (ev : EventModel) : List (List String) :=
  ev.inputs.map (fun p =>
    [ev.contract, ev.name, ev.signature, ev.topic0,
     toString p.position, p.name, p.type, if p.indexed then "1" else "0"])

-- ------------------------------ filter stub generator ------------------------------

/-- The `topics` array of the `eth_getLogs` stub built by `filters_cmd`:
`[ev.topic0] + ["<topic for indexed arg>"] * idx_count` with
`idx_count = sum(1 for prm in ev.inputs if prm.indexed)`. -/
def topicsForEvent (ev : EventModel) : List String :=
  ev.topic0 :: List.replicate (ev.inputs.countP (fun prm => prm.indexed)) "<topic for indexed arg>"

-- ------------------------------ concrete fixtures ------------------------------

def wIns1 : List Json :=
  [.obj [("name", .str "from"), ("type", .str "address"), ("indexed", .bool true)],
   .obj [("name", .str "amount"), ("type", .str "uint256")]]

def wIns2 : List Json :=
  [.obj [("name", .str "sender"), ("type", .str "address"), ("indexed", .bool true)],
   .obj [("name", .str "wad"), ("type", .str "uint256")]]

def w6Entry : Json :=
  .obj [("type", .str "event"), ("name", .str "Mixed"),
        ("inputs", .arr
          [.obj [("type", .str "address")],
           .obj [("name", .str ""), ("type", .str "uint256"), ("indexed", .bool true)],
           .obj [("name", .str "x")]])]

def cexParse : String → Option Json := fun _ => none

def goodEventEntry : Json :=
  .obj [("type", .str "event"), ("name", .str "Ping"), ("inputs", .arr [])]

def cexContent : String → Option Json := fun p =>
  if p = "a.json" then some (.arr [goodEventEntry])
  else if p = "b.json" then some (.obj [("foo", .str "bar")])
  else none

-- ------------------------------ supporting lemmas ------------------------------

theorem keccak256_length (msg : List Nat) : (keccak256 msg).length = 32 := by
  simp [keccak256, laneBytes]

theorem laneBytes_lt (x : Nat) : ∀ b ∈ laneBytes x, b < 256 := by
  intro b hb
  simp only [laneBytes, List.mem_cons, List.not_mem_nil, or_false] at hb
  rcases hb with rfl | rfl | rfl | rfl | rfl | rfl | rfl | rfl <;>
    exact Nat.mod_lt _ (by norm_num)

theorem keccak256_lt (msg : List Nat) : ∀ b ∈ keccak256 msg, b < 256 := by
  intro b hb
  simp only [keccak256, List.mem_append] at hb
  rcases hb with ((h | h) | h) | h <;> exact laneBytes_lt _ b h

theorem hexDigit_mem : ∀ n < 16, ("0123456789abcdef".data).contains (hexDigit n) = true := by
  decide

theorem bytesHexChars_length (bs : List Nat) : (bytesHexChars bs).length = 2 * bs.length := by
  induction bs with
  | nil => simp [bytesHexChars]
  | cons b rest ih => simp [bytesHexChars, ih]; omega

theorem bytesHexChars_hex (bs : List Nat) (h : ∀ b ∈ bs, b < 256) :
    ∀ c ∈ bytesHexChars bs, ("0123456789abcdef".data).contains c = true := by
  induction bs with
  | nil => simp [bytesHexChars]
  | cons b rest ih =>
    intro c hc
    have hb : b < 256 := h b (List.mem_cons_self _ _)
    simp only [bytesHexChars, List.mem_cons] at hc
    rcases hc with rfl | rfl | hc
    · exact hexDigit_mem _ (by omega)
    · exact hexDigit_mem _ (Nat.mod_lt _ (by norm_num))
    · exact ih (fun x hx => h x (List.mem_cons_of_mem _ hx)) c hc

-- ------------------------------ C3 ------------------------------

/-- C3: for every signature string, the derived `topic0` is the string
`"0x"` followed by exactly 64 lowercase hexadecimal characters (66
characters in total), namely the hex encoding of the 32-byte Keccak-256
digest of the UTF-8 bytes of the signature, with no padding or
truncation. -/
theorem topic0_hex_of_keccak (sig : String) :
    topic0 sig = "0x" ++ bytesHex (keccak256 (utf8Bytes sig)) ∧
    (keccak256 (utf8Bytes sig)).length = 32 ∧
    ((keccak256 (utf8Bytes sig)).all (fun b => decide (b < 256))) = true ∧
    (topic0 sig).data = '0' :: 'x' :: bytesHexChars (keccak256 (utf8Bytes sig)) ∧
    (topic0 sig).length = 66 ∧
    ((bytesHexChars (keccak256 (utf8Bytes sig))).all
      (fun c => ("0123456789abcdef".data).contains c)) = true := by
  have hdata : (topic0 sig).data = '0' :: 'x' :: bytesHexChars (keccak256 (utf8Bytes sig)) := rfl
  refine ⟨rfl, keccak256_length _, ?_, hdata, ?_, ?_⟩
  · exact List.all_eq_true.mpr (fun b hb => decide_eq_true (keccak256_lt _ b hb))
  · show (topic0 sig).data.length = 66
    rw [hdata]
    simp [bytesHexChars_length, keccak256_length]
  · exact List.all_eq_true.mpr (bytesHexChars_hex _ (keccak256_lt _))

-- ------------------------------ C1 ------------------------------

theorem buildEvent_topic0_eq (path : String) (it : Json) :
    (buildEvent path it).topic0 = topic0 ((buildEvent path it).signature) := rfl

/-- C1: for every event name and every two parameter lists that agree
pairwise in type strings and declaration order but differ only in
parameter names, the derived signature and the derived topic0 are
identical; and topic0 is a pure function of the signature string, so two
events with the same signature always yield the same topic0 regardless
of parameter names or source file. -/
theorem eventSignature_topic0_name_independent (name : String) (ins1 ins2 : List Json)
    (h : ins1.map (fun p => jget p "type") = ins2.map (fun p => jget p "type")) :
    eventSignature name ins1 = eventSignature name ins2 ∧
    topic0 (eventSignature name ins1) = topic0 (eventSignature name ins2) ∧
    ∀ path1 path2 it1 it2,
      (buildEvent path1 it1).signature = (buildEvent path2 it2).signature →
      (buildEvent path1 it1).topic0 = (buildEvent path2 it2).topic0 := by
  have htypes : ins1.map (fun p => normalizeType (strOrEmpty (jget p "type"))) =
      ins2.map (fun p => normalizeType (strOrEmpty (jget p "type"))) := by
    have h1 : ins1.map (fun p => normalizeType (strOrEmpty (jget p "type"))) =
        (ins1.map (fun p => jget p "type")).map (fun o => normalizeType (strOrEmpty o)) := by
      rw [List.map_map]; rfl
    have h2 : ins2.map (fun p => normalizeType (strOrEmpty (jget p "type"))) =
        (ins2.map (fun p => jget p "type")).map (fun o => normalizeType (strOrEmpty o)) := by
      rw [List.map_map]; rfl
    rw [h1, h2, h]
  have hsig : eventSignature name ins1 = eventSignature name ins2 := by
    unfold eventSignature
    rw [htypes]
  refine ⟨hsig, by rw [hsig], ?_⟩
  intro path1 path2 it1 it2 hs
  rw [buildEvent_topic0_eq, buildEvent_topic0_eq, hs]

theorem eventSignature_topic0_name_independent_witness :
    eventSignature "Transfer" wIns1 = eventSignature "Transfer" wIns2 ∧
    topic0 (eventSignature "Transfer" wIns1) = topic0 (eventSignature "Transfer" wIns2) :=
  ⟨(eventSignature_topic0_name_independent "Transfer" wIns1 wIns2 rfl).1,
   (eventSignature_topic0_name_independent "Transfer" wIns1 wIns2 rfl).2.1⟩

-- ------------------------------ C4 ------------------------------

/-- C4: the type normalizer maps exactly `"uint"` to `"uint256"` and
`"int"` to `"int256"` and returns every other string unchanged, never
failing; and a parameter of raw type `"uint"` surfaces as `"uint256"`
in the signature, in the SQL column type of every dialect, and in the
JSON-Schema property type. -/
theorem normalizeType_policy_and_propagation (t : String)
    (h1 : t ≠ "uint") (h2 : t ≠ "int") :
    normalizeType "uint" = "uint256" ∧
    normalizeType "int" = "int256" ∧
    normalizeType t = t ∧
    eventSignature "E" [.obj [("type", .str "uint")]] = "E(uint256)" ∧
    (buildParam 0 (.obj [("name", .str "value"), ("type", .str "uint")])).type = "uint256" ∧
    toSqlType "uint" "postgres" = "numeric(78)" ∧
    toSqlType "uint" "bigquery" = "BIGNUMERIC" ∧
    toSqlType "uint" "clickhouse" = "Decimal(76,0)" ∧
    (∀ target, toSqlType "uint" target = toSqlType "uint256" target) ∧
    paramPropType (buildParam 0 (.obj [("name", .str "value"), ("type", .str "uint")])).type =
      .obj [("type", .str "string"), ("pattern", .str "^-?\\d+$")] := by
  refine ⟨rfl, rfl, ?_, by rfl, by rfl, by rfl, by rfl, by rfl, fun target => by rfl, by rfl⟩
  unfold normalizeType
  rw [if_neg h1, if_neg h2]

theorem normalizeType_policy_and_propagation_witness :
    normalizeType "uint[]" = "uint[]" :=
  (normalizeType_policy_and_propagation "uint[]" (by decide) (by decide)).2.2.1

-- ------------------------------ enumerate lemmas ------------------------------

theorem buildParamsFrom_length (k : Nat) (ins : List Json) :
    (buildParamsFrom k ins).length = ins.length := by
  induction ins generalizing k with
  | nil => rfl
  | cons p rest ih => simp [buildParamsFrom, ih]

theorem buildParamsFrom_getElem (k : Nat) (ins : List Json) (i : Nat) :
    (buildParamsFrom k ins)[i]? = (ins[i]?).map (fun p => buildParam (k + i) p) := by
  induction ins generalizing k i with
  | nil => simp [buildParamsFrom]
  | cons p rest ih =>
    cases i with
    | zero => simp [buildParamsFrom]
    | succ j =>
      have hadd : k + 1 + j = k + (j + 1) := by omega
      simp [buildParamsFrom, ih (k + 1) j, hadd]

theorem buildParamsFrom_positions (k : Nat) (ins : List Json) :
    (buildParamsFrom k ins).map (fun p => p.position) = List.range' k ins.length := by
  induction ins generalizing k with
  | nil => rfl
  | cons p rest ih => simp [buildParamsFrom, List.range', ih, buildParam]

-- ------------------------------ C6 ------------------------------

/-- C6: for every raw entry with `type == "event"` the builder succeeds
and applies the defaulting policy: parameter `i` is named `arg{i}` when
the source name is absent or empty, `indexed` defaults to `false` when
absent, `anonymous` defaults to `false` when absent, a parameter with no
`type` field gets the empty type string, and `contract` is the source
file's base name with its extension stripped. -/
theorem buildEvent_defaulting (path : String) (it : Json)
    (hty : jget it "type" = some (.str "event")) :
    extractEvents path [it] = [buildEvent path it] ∧
    (buildEvent path it).contract = pySplitextRoot (pyBasename path) ∧
    (jget it "anonymous" = none → (buildEvent path it).anonymous = false) ∧
    (buildEvent path it).inputs = buildParams (eventInputs it) ∧
    ∀ i p, (eventInputs it)[i]? = some p →
      ((buildEvent path it).inputs[i]? = some (buildParam i p) ∧
       ((jget p "name" = none ∨ jget p "name" = some (.str "")) →
         (buildParam i p).name = "arg" ++ toString i) ∧
       (jget p "indexed" = none → (buildParam i p).indexed = false) ∧
       (jget p "type" = none → (buildParam i p).type = "")) := by
  refine ⟨?_, rfl, ?_, rfl, ?_⟩
  · simp [extractEvents, isEventEntry, hty]
  · intro h
    show pyBool (jget it "anonymous") = false
    rw [h]
    rfl
  · intro i p hp
    refine ⟨?_, ?_, ?_, ?_⟩
    · show (buildParams (eventInputs it))[i]? = some (buildParam i p)
      rw [buildParams, buildParamsFrom_getElem, hp]
      simp
    · rintro (h | h) <;> simp [buildParam, h]
    · intro h
      show pyBool (jget p "indexed") = false
      rw [h]
      rfl
    · intro h
      show normalizeType (strOrEmpty (jget p "type")) = ""
      rw [h]
      rfl

theorem buildEvent_defaulting_witness :
    (buildEvent "abis/token.json" w6Entry).contract = "token" ∧
    (buildParam 0 (.obj [("type", .str "address")])).name = "arg0" ∧
    (buildParam 0 (.obj [("type", .str "address")])).indexed = false ∧
    (buildParam 2 (.obj [("name", .str "x")])).type = "" ∧
    (jget w6Entry "anonymous" = none ∧ (buildEvent "abis/token.json" w6Entry).anonymous = false) := by
  have h := buildEvent_defaulting "abis/token.json" w6Entry rfl
  have h0 := h.2.2.2.2 0 (.obj [("type", .str "address")]) rfl
  have h2 := h.2.2.2.2 2 (.obj [("name", .str "x")]) rfl
  exact ⟨h.2.1.trans (by rfl), h0.2.1 (Or.inl rfl), h0.2.2.1 rfl, h2.2.2.2 rfl,
    rfl, h.2.2.1 rfl⟩

-- ------------------------------ C7 ------------------------------

/-- C7: for every `EventModel` produced by extraction, the `position`
values of its inputs are exactly `0, 1, ..., n-1` in declaration order,
and filtering the parameter list (the indexed / non-indexed split done
downstream) never changes any parameter's `position`: each filtered
parameter still sits at index `position` of the original list. -/
theorem extractEvents_positions (path : String) (abi : List Json) (ev : EventModel)
    (h : ev ∈ extractEvents path abi) :
    ev.inputs.map (fun p => p.position) = List.range ev.inputs.length ∧
    ∀ f : Param → Bool, ∀ p ∈ ev.inputs.filter f, ev.inputs[p.position]? = some p := by
  obtain ⟨it, _, rfl⟩ := List.mem_map.mp h
  have hlen : (buildEvent path it).inputs.length = (eventInputs it).length := by
    show (buildParamsFrom 0 (eventInputs it)).length = _
    exact buildParamsFrom_length 0 _
  have hpos : (buildEvent path it).inputs.map (fun p => p.position) =
      List.range' 0 (buildEvent path it).inputs.length := by
    show (buildParamsFrom 0 (eventInputs it)).map (fun p => p.position) = _
    rw [buildParamsFrom_positions, hlen]
  constructor
  · rw [hpos, List.range_eq_range']
  · intro f p hpf
    have hpmem : p ∈ (buildEvent path it).inputs := List.mem_of_mem_filter hpf
    obtain ⟨i, hi⟩ := List.mem_iff_get.mp hpmem
    have hget : (buildEvent path it).inputs[i.1]? = some p := by
      rw [List.getElem?_eq_getElem i.2]
      simp [← List.get_eq_getElem, hi]
    have hbp : (eventInputs it)[i.1]?.map (fun q => buildParam (0 + i.1) q) = some p := by
      rw [← buildParamsFrom_getElem]
      exact hget
    obtain ⟨q, hq, rfl⟩ := Option.map_eq_some'.mp hbp
    have : (buildParam (0 + i.1) q).position = i.1 := by simp [buildParam]
    rw [this]
    exact hget

theorem extractEvents_positions_witness :
    (buildEvent "abis/token.json" w6Entry).inputs.map (fun p => p.position) =
      List.range (buildEvent "abis/token.json" w6Entry).inputs.length := by
  have hmem : buildEvent "abis/token.json" w6Entry ∈ extractEvents "abis/token.json" [w6Entry] := by
    have he : extractEvents "abis/token.json" [w6Entry] =
        [buildEvent "abis/token.json" w6Entry] := rfl
    rw [he]
    exact List.mem_singleton.mpr rfl
  exact (extractEvents_positions "abis/token.json" [w6Entry] _ hmem).1

-- ------------------------------ C8 ------------------------------

/-- C8: in the SQL DDL for every `EventModel` and dialect, each event
parameter yields exactly one column after the six fixed leading columns,
named by the lowercased parameter name with prefix `idx_` when indexed
and `data_` otherwise, typed through the dialect's type table; in
particular an indexed `address` parameter named `from` yields `idx_from`
with the dialect's byte-string type and a non-indexed `uint256`
parameter named `value` yields `data_value`. -/
theorem ddl_columns_per_param (ev : EventModel) (target : String) :
    (ddlColsForEvent ev target).length = 6 + ev.inputs.length ∧
    (ddlColsForEvent ev target).drop 6 =
      ev.inputs.map (fun p => (colKey p, toSqlType p.type target)) ∧
    colKey { name := "from", type := "address", indexed := true, position := 0 } = "idx_from" ∧
    colKey { name := "value", type := "uint256", indexed := false, position := 1 } = "data_value" ∧
    toSqlType "address" "postgres" = "bytea" ∧
    toSqlType "address" "bigquery" = "BYTES" ∧
    toSqlType "address" "clickhouse" = "FixedString(20)" ∧
    toSqlType "uint256" "postgres" = "numeric(78)" ∧
    toSqlType "uint256" "bigquery" = "BIGNUMERIC" ∧
    toSqlType "uint256" "clickhouse" = "Decimal(76,0)" := by
  refine ⟨?_, by rfl, by rfl, by rfl, by rfl, by rfl, by rfl, by rfl, by rfl, by rfl⟩
  simp [ddlColsForEvent]
  omega

-- ------------------------------ C9 ------------------------------

/-- C9: for every `EventModel`, the generated log-filter stub's `topics`
array has length 1 plus the number of indexed parameters: its first
element is the event's `topic0` and its tail is exactly one placeholder
string per indexed parameter; non-indexed parameters contribute no
topic slots. -/
theorem topicsForEvent_shape (ev : EventModel) :
    (topicsForEvent ev).length = 1 + ev.inputs.countP (fun p => p.indexed) ∧
    (topicsForEvent ev).head? = some ev.topic0 ∧
    (topicsForEvent ev).tail =
      List.replicate (ev.inputs.countP (fun p => p.indexed)) "<topic for indexed arg>" ∧
    ev.inputs.countP (fun p => p.indexed) =
      (ev.inputs.filter (fun p => p.indexed)).length := by
  refine ⟨?_, rfl, rfl, ?_⟩
  · simp [topicsForEvent]
    omega
  · rw [List.countP_eq_length_filter]

-- ------------------------------ C5 ------------------------------

theorem loadAbiAny_arr (parse : String → Option Json) (path : String) (xs : List Json) :
    loadAbiAny parse path (some (.arr xs)) = .ok xs := rfl

theorem loadAbiAny_abi_key (parse : String → Option Json) (path : String)
    (kvs : List (String × Json)) (xs : List Json)
    (habi : jget (.obj kvs) "abi" = some (.arr xs)) :
    loadAbiAny parse path (some (.obj kvs)) = .ok xs := by
  simp only [loadAbiAny]
  rw [habi]

theorem loadAbiAny_result_key (parse : String → Option Json) (path : String)
    (kvs : List (String × Json)) (s : String) (xs : List Json)
    (habi : ∀ ys, jget (.obj kvs) "abi" ≠ some (.arr ys))
    (hres : jget (.obj kvs) "result" = some (.str s))
    (hp : parse s = some (.arr xs)) :
    loadAbiAny parse path (some (.obj kvs)) = .ok xs := by
  simp only [loadAbiAny]
  rcases h : jget (.obj kvs) "abi" with _ | v
  · rw [hres]; simp [hp]
  · cases v with
    | arr ys => exact absurd h (habi ys)
    | null => rw [hres]; simp [hp]
    | bool b => rw [hres]; simp [hp]
    | num n => rw [hres]; simp [hp]
    | str t => rw [hres]; simp [hp]
    | obj kvs2 => rw [hres]; simp [hp]

theorem loadAbiAny_some_errors_name_path (parse : String → Option Json)
    (path : String) (data : Json) :
    (∃ xs, loadAbiAny parse path (some data) = .ok xs) ∨
    loadAbiAny parse path (some data) = .error (.unrecognized path) := by
  simp only [loadAbiAny]
  cases data <;> simp
  repeat' split
  all_goals simp

theorem loadAbiAny_ok_shape (parse : String → Option Json) (path : String)
    (content : Option Json) (xs : List Json)
    (h : loadAbiAny parse path content = .ok xs) :
    ∃ data, content = some data ∧
      (data = .arr xs ∨
       ∃ kvs, data = .obj kvs ∧
         (jget data "abi" = some (.arr xs) ∨
          ∃ s, jget data "result" = some (.str s) ∧ parse s = some (.arr xs))) := by
  simp only [loadAbiAny] at h
  rcases content with _ | data
  · exact absurd h (by simp)
  · refine ⟨data, rfl, ?_⟩
    cases data <;> simp_all
    repeat' split at h
    all_goals simp_all

/-- C5 (amended): the loader returns the raw entry list exactly for the
three container shapes — (a) the content is an array, (b) an object
whose `abi` key holds an array, (c) an object whose `result` key holds a
string parsing to a JSON array; every other valid-JSON content fails
with the format error naming the path; a file that is not valid JSON
fails with the JSON decode error, which does not name the path; and
every extracted model comes from an entry whose `type` field is the
string `"event"`. -/
theorem loadAbiAny_shapes_and_filter (parse : String → Option Json) (path : String) :
    (∀ xs, loadAbiAny parse path (some (.arr xs)) = .ok xs) ∧
    (∀ kvs xs, jget (.obj kvs) "abi" = some (.arr xs) →
      loadAbiAny parse path (some (.obj kvs)) = .ok xs) ∧
    (∀ kvs s xs, (∀ ys, jget (.obj kvs) "abi" ≠ some (.arr ys)) →
      jget (.obj kvs) "result" = some (.str s) → parse s = some (.arr xs) →
      loadAbiAny parse path (some (.obj kvs)) = .ok xs) ∧
    (∀ data, (∃ xs, loadAbiAny parse path (some data) = .ok xs) ∨
      loadAbiAny parse path (some data) = .error (.unrecognized path)) ∧
    (∀ content xs, loadAbiAny parse path content = .ok xs →
      ∃ data, content = some data ∧
        (data = .arr xs ∨
         ∃ kvs, data = .obj kvs ∧
           (jget data "abi" = some (.arr xs) ∨
            ∃ s, jget data "result" = some (.str s) ∧ parse s = some (.arr xs)))) ∧
    loadAbiAny parse path none = .error .jsonDecode ∧
    CliError.jsonDecode ≠ CliError.unrecognized path ∧
    (∀ abi ev, ev ∈ extractEvents path abi →
      ∃ it, it ∈ abi ∧ isEventEntry it = true ∧ ev = buildEvent path it) := by
  refine ⟨loadAbiAny_arr parse path, loadAbiAny_abi_key parse path,
    loadAbiAny_result_key parse path, loadAbiAny_some_errors_name_path parse path,
    loadAbiAny_ok_shape parse path, rfl, by simp, ?_⟩
  intro abi ev hev
  obtain ⟨it, hit, rfl⟩ := List.mem_map.mp hev
  exact ⟨it, List.mem_of_mem_filter hit, List.of_mem_filter hit, rfl⟩

theorem loadAbiAny_shapes_and_filter_witness :
    loadAbiAny (fun _ => none) "ok.json" (some (.arr [])) = .ok [] ∧
    loadAbiAny (fun _ => none) "ok.json" none = .error .jsonDecode :=
  ⟨(loadAbiAny_shapes_and_filter (fun _ => none) "ok.json").1 [],
   (loadAbiAny_shapes_and_filter (fun _ => none) "ok.json").2.2.2.2.2.1⟩

/-- Counterexample to C5 as stated: on a file that is not valid JSON the
loader does not fail with the format error naming the offending path —
the JSON decode error escapes instead, and it carries no path. -/
theorem loadAbiAny_invalid_json_error_lacks_path :
    loadAbiAny (fun _ => none) "bad.json" none = .error .jsonDecode ∧
    CliError.jsonDecode ≠ CliError.unrecognized "bad.json" :=
  ⟨rfl, by simp⟩

-- ------------------------------ C2 ------------------------------

theorem processFiles_go_error (parse : String → Option Json)
    (content : String → Option Json) (good : List String) (badPath : String)
    (rest : List String) (e : CliError)
    (hgood : ∀ p ∈ good, ∃ evs, extractEventsFile parse content p = .ok evs)
    (hbad : extractEventsFile parse content badPath = .error e) :
    ∀ acc : List EventModel,
      (good ++ badPath :: rest).foldlM
        (fun acc p => (extractEventsFile parse content p).map (fun evs => acc ++ evs)) acc =
      .error e := by
  induction good with
  | nil =>
    intro acc
    simp only [List.nil_append, List.foldlM_cons, hbad]
    rfl
  | cons q good' ih =>
    intro acc
    obtain ⟨evs, hq⟩ := hgood q (List.mem_cons_self _ _)
    simp only [List.cons_append, List.foldlM_cons, hq]
    exact ih (fun p hp => hgood p (List.mem_cons_of_mem _ hp)) (acc ++ evs)

/-- C2 (amended): when one of the resolved files holds JSON matching no
ABI container shape, the invocation fails with the format error naming
that file's path — and, the propagation policy being fatal, the events
of the other valid files (even those already processed earlier in the
same invocation) do not appear in any output: the command loop returns
the error and prints nothing. -/
theorem build_aborts_on_unrecognized (parse : String → Option Json)
    (content : String → Option Json) (good : List String) (badPath : String)
    (rest : List String)
    (hgood : ∀ p ∈ good, ∃ evs, extractEventsFile parse content p = .ok evs)
    (hbad : loadAbiAny parse badPath (content badPath) = .error (.unrecognized badPath)) :
    processFiles parse content (good ++ badPath :: rest) =
      .error (.unrecognized badPath) := by
  have hbad' : extractEventsFile parse content badPath = .error (.unrecognized badPath) := by
    unfold extractEventsFile
    rw [hbad]
    rfl
  exact processFiles_go_error parse content good badPath rest _ hgood hbad' []

theorem build_aborts_on_unrecognized_witness :
    processFiles cexParse cexContent (["a.json"] ++ "b.json" :: []) =
      .error (.unrecognized "b.json") :=
  build_aborts_on_unrecognized cexParse cexContent ["a.json"] "b.json" []
    (by
      intro p hp
      rw [List.mem_singleton.mp hp]
      exact ⟨extractEvents "a.json" [goodEventEntry], rfl⟩)
    rfl

/-- Counterexample to C2 as stated: with `a.json` holding one valid
event and `b.json` holding `{"foo": "bar"}`, the whole `build`
invocation returns the error for `b.json` and emits no events at all,
although the valid file on its own yields one event — the other
already-resolved valid files are NOT still processed into output. -/
theorem build_drops_valid_files_on_error :
    buildCmd cexParse (fun _ => []) (fun p => p == "a.json" || p == "b.json") cexContent
      ["a.json", "b.json"] = .error (.unrecognized "b.json") ∧
    (extractEvents "a.json" [goodEventEntry]).length = 1 :=
  ⟨by rfl, by rfl⟩

-- ------------------------------ C10 ------------------------------

theorem char_lt_iff_toNat (c d : Char) : c < d ↔ c.toNat < d.toNat := Iff.rfl

theorem charListLe_iff_not_lt (as : List Char) :
    ∀ bs : List Char, charListLe as bs = true ↔ ¬ List.lt bs as := by
  induction as with
  | nil =>
    intro bs
    constructor
    · intro _ hlt
      cases hlt
    · intro _
      rfl
  | cons c cs ih =>
    intro bs
    cases bs with
    | nil =>
      simp only [charListLe, Bool.false_eq_true, false_iff, not_not]
      exact List.lt.nil c cs
    | cons d ds =>
      by_cases h1 : c.toNat < d.toNat
      · simp only [charListLe, if_pos h1, true_iff]
        intro hlt
        cases hlt with
        | head _ _ h => exact absurd ((char_lt_iff_toNat d c).mp h) (by omega)
        | tail hdc hcd h => exact hcd ((char_lt_iff_toNat c d).mpr h1)
      · by_cases h2 : d.toNat < c.toNat
        · simp only [charListLe, if_neg h1, if_pos h2, Bool.false_eq_true, false_iff, not_not]
          exact List.lt.head ds cs ((char_lt_iff_toNat d c).mpr h2)
        · simp only [charListLe, if_neg h1, if_neg h2]
          rw [ih ds]
          constructor
          · intro hnl hlt
            cases hlt with
            | head _ _ h => exact h2 ((char_lt_iff_toNat d c).mp h)
            | tail hdc hcd h => exact hnl h
          · intro hnl hlt
            exact hnl (List.lt.tail (fun h => h2 ((char_lt_iff_toNat d c).mp h))
              (fun h => h1 ((char_lt_iff_toNat c d).mp h)) hlt)

/-- The structural comparison agrees with the standard string order. -/
theorem strLe_iff_le (a b : String) : strLe a b = true ↔ a ≤ b := by
  rw [String.le_iff_toList_le, ← not_lt]
  rw [show strLe a b = charListLe a.data b.data from rfl, charListLe_iff_not_lt]
  exact not_congr (List.lt_iff_lex_lt b.data a.data)

/-- C10: whenever path expansion succeeds, it returns a nonempty,
duplicate-free list sorted ascending in string order, and the result
depends only on the set of given paths — reordering or repeating the
arguments yields the identical file list. -/
theorem expandPaths_sorted_dedup_canonical (globFn : String → List String)
    (isfile : String → Bool) (paths1 paths2 : List String) (l : List String)
    (h : expandPaths globFn isfile paths1 = .ok l)
    (hset : ∀ p, p ∈ paths1 ↔ p ∈ paths2) :
    l ≠ [] ∧ l.Sorted (fun a b : String => a ≤ b) ∧ l.Nodup ∧
    expandPaths globFn isfile paths2 = .ok l := by
  haveI htot : IsTotal String (fun a b => strLe a b = true) :=
    ⟨fun a b => by rw [strLe_iff_le, strLe_iff_le]; exact le_total a b⟩
  haveI htrans : IsTrans String (fun a b => strLe a b = true) :=
    ⟨fun a b c h1 h2 => by
      rw [strLe_iff_le] at h1 h2 ⊢
      exact le_trans h1 h2⟩
  haveI hanti : IsAntisymm String (fun a b => strLe a b = true) :=
    ⟨fun a b h1 h2 => by
      rw [strLe_iff_le] at h1 h2
      exact le_antisymm h1 h2⟩
  have hmemout : ∀ x, x ∈ paths1.flatMap (pathContribution globFn isfile) ↔
      x ∈ paths2.flatMap (pathContribution globFn isfile) := by
    intro x
    simp only [List.mem_flatMap]
    constructor <;> rintro ⟨p, hp, hx⟩
    · exact ⟨p, (hset p).mp hp, hx⟩
    · exact ⟨p, (hset p).mpr hp, hx⟩
  have hperm : List.Perm (paths1.flatMap (pathContribution globFn isfile)).dedup
      (paths2.flatMap (pathContribution globFn isfile)).dedup :=
    (List.perm_ext_iff_of_nodup (List.nodup_dedup _) (List.nodup_dedup _)).mpr
      (fun a => by rw [List.mem_dedup, List.mem_dedup]; exact hmemout a)
  have hsorteq : List.insertionSort (fun a b => strLe a b = true)
        (paths1.flatMap (pathContribution globFn isfile)).dedup =
      List.insertionSort (fun a b => strLe a b = true)
        (paths2.flatMap (pathContribution globFn isfile)).dedup := by
    have hp : List.Perm
        (List.insertionSort (fun a b => strLe a b = true)
          (paths1.flatMap (pathContribution globFn isfile)).dedup)
        (List.insertionSort (fun a b => strLe a b = true)
          (paths2.flatMap (pathContribution globFn isfile)).dedup) :=
      (List.perm_insertionSort _ _).trans (hperm.trans (List.perm_insertionSort _ _).symm)
    exact List.eq_of_perm_of_sorted hp
      (List.sorted_insertionSort (fun a b => strLe a b = true) _)
      (List.sorted_insertionSort (fun a b => strLe a b = true) _)
  simp only [expandPaths] at h ⊢
  split at h
  · exact absurd h (by simp)
  · rename_i hne
    have heq := Except.ok.inj h
    subst heq
    refine ⟨hne, ?_, ?_, ?_⟩
    · exact List.Pairwise.imp (fun hab => (strLe_iff_le _ _).mp hab)
        (List.sorted_insertionSort _ _)
    · exact ((List.perm_insertionSort _ _).symm).nodup (List.nodup_dedup _)
    · rw [← hsorteq, if_neg hne]

theorem expandPaths_sorted_dedup_canonical_witness :
    expandPaths (fun _ => []) (fun p => p == "b.json" || p == "a.json")
      ["b.json", "a.json", "b.json"] = .ok ["a.json", "b.json"] ∧
    expandPaths (fun _ => []) (fun p => p == "b.json" || p == "a.json")
      ["a.json", "b.json"] = .ok ["a.json", "b.json"] ∧
    (["a.json", "b.json"] : List String) ≠ [] := by
  have h1 : expandPaths (fun _ => []) (fun p => p == "b.json" || p == "a.json")
      ["b.json", "a.json", "b.json"] = .ok ["a.json", "b.json"] := by rfl
  have h := expandPaths_sorted_dedup_canonical (fun _ => [])
    (fun p => p == "b.json" || p == "a.json") ["b.json", "a.json", "b.json"]
    ["a.json", "b.json"] ["a.json", "b.json"] h1
    (by intro p; simp [List.mem_cons]; tauto)
  exact ⟨h1, h.2.2.2, h.1⟩

set_option maxRecDepth 100000 in
/-- Validation of the Keccak-256 embedding against the well-known
ERC-20 `Transfer` event topic, checked by kernel evaluation. -/
theorem topic0_transfer_value :
    topic0 "Transfer(address,address,uint256)" =
      "0xddf252ad1be2c89b69c2b068fc378daa952ba7f163c4a11628f55a4df523b3ef" := by rfl
